import Mathlib

/-!
Verification of the BenchDiff comparison/aggregation/gating engine
(`src/benchdiff/compare.py` and `src/benchdiff/color_utils.py`).

Modelling conventions:
* Python floats are modelled as exact rationals (`ℚ`); all decision logic in
  the source is arithmetic comparison, division and `round`, which translate
  exactly.
* `math.nan` (assigned to the value fields of an error `Comparison`) is
  modelled by `none` in an `Option ℚ` field.
* Python `round(x, n)` performs round-half-to-even on the decimal expansion;
  `rndHalfEven`/`roundTo` below implement that on `ℚ`.
* Python dicts are modelled as association lists looked up by first match;
  iteration/insertion order of dict keys is first-occurrence order, which
  `uniqueAux` reproduces.
* Python string ordering (used by `sorted`) is lexicographic on code points,
  implemented structurally by `strLtb` on the character lists.
* The `TypeError` raised by formatting a `None` percentage in
  `evaluate_ci_gate` is modelled by an `Except String` result; reason strings
  are modelled as structured `GateReason` values carrying the interpolated
  data.
-/

namespace BenchDiff

/-- Round-half-to-even of a rational to an integer, as Python round does. -/
def rndHalfEven (x : ℚ) : ℤ :=
  let f : ℤ := ⌊x⌋
  let r : ℚ := x - f
  if r < 1/2 then f
  else if r > 1/2 then f + 1
  else if f % 2 = 0 then f else f + 1

/-- Python round(x, n) on the exact-rational model. -/
def roundTo (n : ℕ) (x : ℚ) : ℚ := (rndHalfEven (x * 10 ^ n) : ℚ) / 10 ^ n

/-- Thresholds dict with keys minor_pct / moderate_pct / major_pct. -/
structure Thresholds where
  minor_pct : ℚ
  moderate_pct : ℚ
  major_pct : ℚ
deriving DecidableEq, Repr

/-- DEFAULT_THRESHOLDS = {"minor_pct": 2.0, "moderate_pct": 5.0, "major_pct": 10.0}. -/
def DEFAULT_THRESHOLDS : Thresholds := ⟨2, 5, 10⟩

/-- THROUGHPUT_METRICS = {"bytes_per_second", "items_per_second"}. -/
def THROUGHPUT_METRICS : List String := ["bytes_per_second", "items_per_second"]

/-- color_utils.classify_severity. -/
def classify_severity (magnitude_pct : ℚ) (thresholds : Thresholds) : String :=
  if magnitude_pct ≥ thresholds.major_pct then "major"
  else if magnitude_pct ≥ thresholds.moderate_pct then "moderate"
  else "minor"

/-- One benchmark record: the numeric fields of the JSON object, plus the
fields that choose_metric_for_benchmark reads. -/
structure BenchObj where
  name : Option String := none
  fields : List (String × ℚ) := []
  time_unit : Option String := none
  primary_metric : Option (List (String × ℚ)) := none
  primary : Option (List (String × ℚ)) := none
deriving DecidableEq, Repr

/-- Dict lookup b[k] on the numeric fields. -/
def dictGet : List (String × ℚ) → String → Option ℚ
  | [], _ => none
  | p :: rest, k => if p.1 = k then some p.2 else dictGet rest k

/-- The candidate loop of choose_metric_for_benchmark: first key that is
truthy (non-empty) and present wins. -/
def firstPresent (d : List (String × ℚ)) : List String → Option (String × ℚ)
  | [] => none
  | k :: ks =>
    if k ≠ "" then
      match dictGet d k with
      | some v => some (k, v)
      | none => firstPresent d ks
    else firstPresent d ks

/-- The primary-metric sub-loop (no truthiness test on the literal keys). -/
def firstPresentPM (d : List (String × ℚ)) : List String → Option (String × ℚ)
  | [] => none
  | k :: ks =>
    match dictGet d k with
    | some v => some (k, v)
    | none => firstPresentPM d ks

/-- Rendering of bench_obj.get("name") inside the error f-string. -/
def nameStr (b : BenchObj) : String :=
  match b.name with
  | some n => n
  | none => "None"

/-- compare.choose_metric_for_benchmark; a ValueError is an `Except.error`. -/
def choose_metric_for_benchmark (b : BenchObj) (prefer : Option String) :
    Except String (String × Option String × ℚ) :=
  let candidates :=
    (match prefer with | some p => [p] | none => []) ++
      ["real_time", "cpu_time", "bytes_per_second", "items_per_second"]
  match firstPresent b.fields candidates with
  | some (k, v) => .ok (k, b.time_unit, v)
  | none =>
    -- pm = bench_obj.get("primary_metric") or bench_obj.get("primary");
    -- an empty dict is falsy in Python.
    let pm : Option (List (String × ℚ)) :=
      match b.primary_metric with
      | some d => if d.isEmpty then b.primary else some d
      | none => b.primary
    match pm with
    | some d =>
      match firstPresentPM d ["value", "real_time", "cpu_time"] with
      | some (k, v) => .ok (k, b.time_unit, v)
      | none => .error ("Could not find a known metric in benchmark " ++ nameStr b)
    | none => .error ("Could not find a known metric in benchmark " ++ nameStr b)

/-- compare.Comparison; the two value fields are `none` exactly when the
source stores math.nan. -/
structure Comparison where
  name : String
  metric : String
  ref_value : Option ℚ
  cur_value : Option ℚ
  pct_change : Option ℚ
  direction : String
  severity : String
  time_unit : Option String
  notes : Option String
  relative_change : Option ℚ := none
deriving DecidableEq, Repr

/-- The inner _direction_and_severity closure of compare_maps. -/
def direction_and_severity (thresholds : Thresholds) (metric_field : String)
    (pct : Option ℚ) : String × String :=
  match pct with
  | none => ("unknown", "none")
  | some p =>
    let sign : ℚ := if metric_field ∈ THROUGHPUT_METRICS then -1 else 1
    let signed_pct := sign * p
    if signed_pct > thresholds.minor_pct then
      ("regression", classify_severity signed_pct thresholds)
    else if signed_pct < -thresholds.minor_pct then ("improvement", "none")
    else ("unchanged", "none")

/-- Python `a or b` on optional strings: the left operand wins when truthy. -/
def orOpt (a b : Option String) : Option String :=
  match a with
  | some s => if s = "" then b else some s
  | none => b

/-- Body of the per-name loop of compare_maps: the Comparison appended for
one name, given the two records. -/
def mkComparison (thresholds : Thresholds) (pref : Option String) (name : String)
    (ref cur : BenchObj) : Comparison :=
  match choose_metric_for_benchmark ref pref with
  | .error e =>
    { name := name
      metric := (match pref with | some p => if p = "" then "unknown" else p | none => "unknown")
      ref_value := none, cur_value := none, pct_change := none
      direction := "unknown", severity := "none", time_unit := none
      notes := some ("metric error: " ++ e), relative_change := none }
  | .ok (metric_field_ref, time_unit_ref, ref_val) =>
    match choose_metric_for_benchmark cur pref with
    | .error e =>
      { name := name
        metric := (match pref with | some p => if p = "" then "unknown" else p | none => "unknown")
        ref_value := none, cur_value := none, pct_change := none
        direction := "unknown", severity := "none", time_unit := none
        notes := some ("metric error: " ++ e), relative_change := none }
    | .ok (_metric_field_cur, time_unit_cur, cur_val) =>
      let metric_field := metric_field_ref
      let pct : Option ℚ :=
        if ref_val = 0 then none else some ((cur_val - ref_val) / |ref_val| * 100)
      let notes : Option String :=
        if ref_val = 0 then some "ref value is zero (cannot compute pct change)" else none
      let ds := direction_and_severity thresholds metric_field pct
      { name := name
        metric := metric_field
        ref_value := some ref_val
        cur_value := some cur_val
        pct_change := pct.map (roundTo 4)
        relative_change := pct.map (fun q => roundTo 6 (q / 100))
        direction := ds.1
        severity := ds.2
        time_unit := orOpt time_unit_ref time_unit_cur
        notes := notes }

/-- Lexicographic byte order on characters, as Python string comparison. -/
def strLtb : List Char → List Char → Bool
  | [], [] => false
  | [], _ :: _ => true
  | _ :: _, [] => false
  | a :: as, b :: bs =>
    if a.toNat < b.toNat then true
    else if a.toNat = b.toNat then strLtb as bs
    else false

/-- s ≤ t for Python strings. -/
def strLe (s t : String) : Prop := strLtb t.data s.data = false

instance : DecidableRel strLe := fun s t => by unfold strLe; infer_instance

/-- First-occurrence deduplication (the key order of a Python dict built by
repeated insertion). -/
def uniqueAux (seen : List String) : List String → List String
  | [] => []
  | k :: rest => if k ∈ seen then uniqueAux seen rest else k :: uniqueAux (k :: seen) rest

/-- Association-list lookup for the two benchmark maps. -/
def alookup : List (String × BenchObj) → String → Option BenchObj
  | [], _ => none
  | p :: rest, k => if p.1 = k then some p.2 else alookup rest k

/-- sorted(set(ref_map.keys()) & set(cur_map.keys())). -/
def sortedNames (ref_map cur_map : List (String × BenchObj)) : List String :=
  List.insertionSort strLe
    (uniqueAux []
      ((ref_map.map Prod.fst).filter (fun n => decide (n ∈ cur_map.map Prod.fst))))

/-- The `out` list of compare_maps before the final sorted(...) call. -/
def compareEntries (ref_map cur_map : List (String × BenchObj)) (pref : Option String)
    (thresholds : Thresholds) : List Comparison :=
  (sortedNames ref_map cur_map).filterMap (fun name =>
    match alookup ref_map name, alookup cur_map name with
    | some ref, some cur => some (mkComparison thresholds pref name ref cur)
    | _, _ => none)

/-- The sort key tuple of the final sorted(...) call of compare_maps:
(c.direction != "regression", -(c.pct_change or 0) if c.pct_change else 0). -/
def sortKey (c : Comparison) : ℕ × ℚ :=
  ((if c.direction ≠ "regression" then 1 else 0),
    (match c.pct_change with
     | some p => if p ≠ 0 then -p else 0
     | none => 0))

/-- Lexicographic ≤ on the sort key tuples. -/
def keyLe (a b : Comparison) : Prop :=
  (sortKey a).1 < (sortKey b).1 ∨
    ((sortKey a).1 = (sortKey b).1 ∧ (sortKey a).2 ≤ (sortKey b).2)

instance : DecidableRel keyLe := fun a b => by unfold keyLe; infer_instance

instance : IsTotal Comparison keyLe where
  total a b := by
    unfold keyLe
    rcases Nat.lt_trichotomy (sortKey a).1 (sortKey b).1 with h | h | h
    · exact Or.inl (Or.inl h)
    · rcases le_total (sortKey a).2 (sortKey b).2 with h2 | h2
      · exact Or.inl (Or.inr ⟨h, h2⟩)
      · exact Or.inr (Or.inr ⟨h.symm, h2⟩)
    · exact Or.inr (Or.inl h)

instance : IsTrans Comparison keyLe where
  trans a b c hab hbc := by
    unfold keyLe at hab hbc ⊢
    rcases hab with h1 | ⟨h1, h1q⟩ <;> rcases hbc with h2 | ⟨h2, h2q⟩
    · exact Or.inl (h1.trans h2)
    · exact Or.inl (h2 ▸ h1)
    · exact Or.inl (h1 ▸ h2)
    · exact Or.inr ⟨h1.trans h2, h1q.trans h2q⟩

/-- compare.compare_maps: Python sorted(...) is a stable sort, modelled by
insertion sort on the key order. -/
def compare_maps (ref_map cur_map : List (String × BenchObj)) (pref : Option String)
    (thresholds : Thresholds) : List Comparison :=
  List.insertionSort keyLe (compareEntries ref_map cur_map pref thresholds)

/-- Split at the last slash of a character list; `none` when no slash occurs
(the "/" in bench_name test). -/
def rsplitSlash : List Char → Option (List Char × List Char)
  | [] => none
  | c :: rest =>
    match rsplitSlash rest with
    | some (base, suf) => some (c :: base, suf)
    | none => if c = '/' then some ([], rest) else none

/-- Python str.isdigit on the ASCII fragment the repository uses. -/
def isDigits (l : List Char) : Bool := !l.isEmpty && l.all (·.isDigit)

/-- Numeric value of a digit string (Python int(...)). -/
def digitsToNat (l : List Char) : ℕ :=
  l.foldl (fun n c => 10 * n + (c.toNat - '0'.toNat)) 0

/-- compare._split_kernel_and_size. -/
def split_kernel_and_size (bench_name : String) : String × Option ℕ :=
  match rsplitSlash bench_name.data with
  | some (base, maybe_size) =>
    if isDigits maybe_size then (String.mk base, some (digitsToNat maybe_size))
    else (String.mk base, none)
  | none => (bench_name, none)

/-- One aggregate dict produced by aggregate_series. -/
structure AggregateEntry where
  kernel : String
  count : ℕ
  mean_relative_change : ℚ
  min_relative_change : ℚ
  max_relative_change : ℚ
  aggregated_direction : String
  aggregated_severity : String
deriving DecidableEq, Repr

/-- statistics.fmean on the exact-rational model. -/
def fmean (l : List ℚ) : ℚ := l.sum / l.length

/-- Descending, stable order on mean_relative_change used by the final
sorted(..., reverse=True) of aggregate_series. -/
def aggGe (a b : AggregateEntry) : Prop :=
  b.mean_relative_change ≤ a.mean_relative_change

instance : DecidableRel aggGe := fun a b => by unfold aggGe; infer_instance

/-- compare.aggregate_series. -/
def aggregate_series (comparisons : List Comparison) (thresholds : Thresholds) :
    List AggregateEntry :=
  let keys := uniqueAux [] (comparisons.map (fun c => (split_kernel_and_size c.name).1))
  let aggregates := keys.filterMap (fun key =>
    let entries := comparisons.filter (fun c => decide ((split_kernel_and_size c.name).1 = key))
    let rels := entries.filterMap (fun e => e.relative_change)
    match rels with
    | [] => none
    | r :: rs =>
      let mean_rc := fmean (r :: rs)
      let min_rc := rs.foldl min r
      let max_rc := rs.foldl max r
      let mag_pct := |mean_rc| * 100
      let aggregated_direction :=
        if mag_pct < thresholds.minor_pct then "unchanged"
        else if mean_rc > 0 then "regression" else "improvement"
      let agg_sev :=
        if aggregated_direction = "regression" then classify_severity mag_pct thresholds
        else "none"
      some { kernel := key
             count := entries.length
             mean_relative_change := roundTo 6 mean_rc
             min_relative_change := roundTo 6 min_rc
             max_relative_change := roundTo 6 max_rc
             aggregated_direction := aggregated_direction
             aggregated_severity := agg_sev })
  List.insertionSort aggGe aggregates

/-- The severity_rank dict (default 0 for unknown keys). -/
def severity_rank (s : String) : ℕ :=
  if s = "none" then 0
  else if s = "minor" then 1
  else if s = "moderate" then 2
  else if s = "major" then 3
  else 0

/-- severity_rank.get(fail_on_severity, 3). -/
def threshold_rank (s : String) : ℕ :=
  if s = "none" then 0
  else if s = "minor" then 1
  else if s = "moderate" then 2
  else if s = "major" then 3
  else 3

/-- compare._regression_magnitude_pct. -/
def regression_magnitude_pct (c : Comparison) : ℚ :=
  if c.direction ≠ "regression" then 0
  else
    match c.pct_change with
    | none => 0
    | some p =>
      if c.metric ∈ THROUGHPUT_METRICS then max 0 (-p) else max 0 p

/-- compare._improvement_magnitude_pct. -/
def improvement_magnitude_pct (c : Comparison) : ℚ :=
  if c.direction ≠ "improvement" then 0
  else
    match c.pct_change with
    | none => 0
    | some p =>
      if c.metric ∈ THROUGHPUT_METRICS then max 0 p else max 0 (-p)

/-- A reason string of evaluate_ci_gate, kept as the interpolated data. -/
inductive GateReason where
  | severityBreach (failOn name metric : String) (pct : ℚ)
  | topBreachWorst (name metric : String) (worstMag ceiling : ℚ)
  | topBreachGeneric (worstMag ceiling : ℚ)
deriving DecidableEq, Repr

/-- The dict returned by evaluate_ci_gate. -/
structure GateResult where
  failed : Bool
  reasons : List GateReason
  worst_regression : Option Comparison
deriving DecidableEq, Repr

/-- One step of the worst-regression tracking loop (the `>=` update). -/
def worstStep (st : Option Comparison × ℚ) (c : Comparison) : Option Comparison × ℚ :=
  if st.2 ≤ regression_magnitude_pct c then (some c, regression_magnitude_pct c) else st

/-- The worst/worst_mag pair after the loop of evaluate_ci_gate. -/
def findWorst (regressions : List Comparison) : Option Comparison × ℚ :=
  regressions.foldl worstStep (none, 0)

/-- The severity-breach reasons collected by the loop of evaluate_ci_gate.
Formatting c.pct_change with "+.2f" raises TypeError when the value is None;
that abort is the `Except.error` case. -/
def severityReasons (failOn : String) (thRank : ℕ) :
    List Comparison → Except String (List GateReason)
  | [] => .ok []
  | c :: rest =>
    if thRank ≤ severity_rank c.severity then
      match c.pct_change with
      | none => .error "TypeError: unsupported format string passed to NoneType.__format__"
      | some p =>
        (severityReasons failOn thRank rest).map
          (fun rs => GateReason.severityBreach failOn c.name c.metric p :: rs)
    else severityReasons failOn thRank rest

/-- compare.evaluate_ci_gate. The source interleaves worst-tracking and
reason collection in one loop over the regressions; the two folds here are
observationally the same because the worst-tracking state never feeds the
reason list inside the loop. -/
def evaluate_ci_gate (comparisons : List Comparison) (fail_on_severity : String)
    (max_top_reg_pct : Option ℚ) : Except String GateResult :=
  let thRank := threshold_rank fail_on_severity
  let regressions := comparisons.filter (fun c => decide (c.direction = "regression"))
  let ws := findWorst regressions
  match severityReasons fail_on_severity thRank regressions with
  | .error e => .error e
  | .ok rs =>
    let reasons :=
      match max_top_reg_pct with
      | some ceiling =>
        if ceiling ≤ ws.2 then
          rs ++ [match ws.1 with
                 | some w => GateReason.topBreachWorst w.name w.metric ws.2 ceiling
                 | none => GateReason.topBreachGeneric ws.2 ceiling]
        else rs
      | none => rs
    .ok { failed := decide (0 < reasons.length)
          reasons := reasons
          worst_regression := ws.1 }

/-! ### Concrete fixtures used by witnesses and counterexamples -/

/-- Fixture: a single benchmark whose bytes_per_second drops from 1000 to
900 (the C3 throughput-polarity scenario). -/
def exRefC3 : List (String × BenchObj) :=
  [("bench", { fields := [("bytes_per_second", 1000)] })]

/-- Fixture: the current side of the throughput-polarity scenario. -/
def exCurC3 : List (String × BenchObj) :=
  [("bench", { fields := [("bytes_per_second", 900)] })]

/-- The Comparison that the throughput-polarity scenario produces. -/
def cmpC3 : Comparison :=
  { name := "bench", metric := "bytes_per_second", ref_value := some 1000,
    cur_value := some 900, pct_change := some (-10), direction := "regression",
    severity := "major", time_unit := none, notes := none,
    relative_change := some (-1/10) }

/-- Fixture: reference side resolving to real_time while the current side
only has cpu_time. -/
def exRefMixed : List (String × BenchObj) :=
  [("x", { fields := [("real_time", 100)] })]

/-- Fixture: current side of the mixed-metric scenario. -/
def exCurMixed : List (String × BenchObj) :=
  [("x", { fields := [("cpu_time", 50)] })]

/-- The Comparison the mixed-metric scenario produces. -/
def cmpMixed : Comparison :=
  { name := "x", metric := "real_time", ref_value := some 100,
    cur_value := some 50, pct_change := some (-50), direction := "improvement",
    severity := "none", time_unit := none, notes := none,
    relative_change := some (-1/2) }

/-- Fixture: a time-like major regression on a size-suffixed name, for the
aggregation witnesses. -/
def aggCmp : Comparison :=
  { name := "k/32", metric := "cpu_time", ref_value := some 100,
    cur_value := some 110, pct_change := some 10, direction := "regression",
    severity := "major", time_unit := none, notes := none,
    relative_change := some (1/10) }

/-- The aggregate entry produced from aggCmp alone. -/
def aggEntryK : AggregateEntry :=
  { kernel := "k", count := 1, mean_relative_change := 1/10,
    min_relative_change := 1/10, max_relative_change := 1/10,
    aggregated_direction := "regression", aggregated_severity := "major" }

/-- Fixture: two benchmarks, a time-like +5 percent regression and a
throughput -11 percent regression, exposing the signed (not absolute) sort
key of compare_maps. -/
def exRefSort : List (String × BenchObj) :=
  [("a", { fields := [("cpu_time", 100)] }), ("b", { fields := [("bytes_per_second", 1000)] })]

/-- Fixture: current side of the sort-order scenario. -/
def exCurSort : List (String × BenchObj) :=
  [("a", { fields := [("cpu_time", 105)] }), ("b", { fields := [("bytes_per_second", 890)] })]

/-- The first Comparison of the sort-order scenario (time-like +5 percent). -/
def cmpSortA : Comparison :=
  { name := "a", metric := "cpu_time", ref_value := some 100,
    cur_value := some 105, pct_change := some 5, direction := "regression",
    severity := "moderate", time_unit := none, notes := none,
    relative_change := some (1/20) }

/-- The second Comparison of the sort-order scenario (throughput -11
percent, the larger magnitude). -/
def cmpSortB : Comparison :=
  { name := "b", metric := "bytes_per_second", ref_value := some 1000,
    cur_value := some 890, pct_change := some (-11), direction := "regression",
    severity := "major", time_unit := none, notes := none,
    relative_change := some (-11/100) }

/-- Fixture: a comparison whose name has a non-numeric suffix after the last
slash. -/
def cmpSlash : Comparison :=
  { name := "a/b", metric := "cpu_time", ref_value := some 100,
    cur_value := some 101, pct_change := some 1, direction := "unchanged",
    severity := "none", time_unit := none, notes := none,
    relative_change := some (1/100) }

/-- The aggregate entry produced from cmpSlash alone: its kernel is "a", not
the full name "a/b". -/
def aggEntrySlash : AggregateEntry :=
  { kernel := "a", count := 1, mean_relative_change := 1/100,
    min_relative_change := 1/100, max_relative_change := 1/100,
    aggregated_direction := "unchanged", aggregated_severity := "none" }

/-- The gate verdict on [cmpSortA, cmpSortB] with fail_on_severity "major"
and no ceiling. -/
def gateResSort : GateResult :=
  { failed := true
    reasons := [GateReason.severityBreach "major" "b" "bytes_per_second" (-11)]
    worst_regression := some cmpSortB }

/-! ### Helper lemmas -/

lemma classify_severity_cases (m : ℚ) (th : Thresholds) :
    classify_severity m th = "major" ∨ classify_severity m th = "moderate" ∨
      classify_severity m th = "minor" := by
  unfold classify_severity
  split_ifs <;> simp

lemma classify_severity_ne_none (m : ℚ) (th : Thresholds) :
    classify_severity m th ≠ "none" := by
  rcases classify_severity_cases m th with h | h | h <;> simp [h]

lemma das_snd_ne_none {th : Thresholds} {mf : String} {pct : Option ℚ}
    (h : (direction_and_severity th mf pct).2 ≠ "none") :
    (direction_and_severity th mf pct).1 = "regression" := by
  unfold direction_and_severity at h ⊢
  cases pct with
  | none => simp at h
  | some p =>
    dsimp only at h ⊢
    split_ifs at h ⊢ <;> simp_all

lemma das_fst_regression {th : Thresholds} {mf : String} {pct : Option ℚ}
    (h : (direction_and_severity th mf pct).1 = "regression") :
    ∃ s, (direction_and_severity th mf pct).2 = classify_severity s th := by
  unfold direction_and_severity at h ⊢
  cases pct with
  | none => simp at h
  | some p =>
    dsimp only at h ⊢
    split_ifs at h ⊢ <;> first | exact ⟨_, rfl⟩ | simp_all

lemma mkComparison_name (th : Thresholds) (pref : Option String) (n : String)
    (ref cur : BenchObj) : (mkComparison th pref n ref cur).name = n := by
  unfold mkComparison
  cases choose_metric_for_benchmark ref pref with
  | error e => rfl
  | ok t =>
    obtain ⟨fr, tur, rv⟩ := t
    cases choose_metric_for_benchmark cur pref with
    | error e => rfl
    | ok t2 => rfl

lemma mkComparison_sev_dir (th : Thresholds) (pref : Option String) (n : String)
    (ref cur : BenchObj) :
    ((mkComparison th pref n ref cur).severity ≠ "none" →
      (mkComparison th pref n ref cur).direction = "regression") ∧
    ((mkComparison th pref n ref cur).direction = "regression" →
      ∃ s, (mkComparison th pref n ref cur).severity = classify_severity s th) := by
  unfold mkComparison
  cases choose_metric_for_benchmark ref pref with
  | error e => simp
  | ok t =>
    obtain ⟨fr, tur, rv⟩ := t
    cases choose_metric_for_benchmark cur pref with
    | error e => simp
    | ok t2 =>
      obtain ⟨fc, tuc, cv⟩ := t2
      exact ⟨fun h => das_snd_ne_none h, fun h => das_fst_regression h⟩

lemma roundTo_div100 (x : ℚ) : roundTo 6 (x / 100) = roundTo 4 x / 100 := by
  unfold roundTo
  have h : x / 100 * 10 ^ 6 = x * 10 ^ 4 := by ring
  rw [h, div_div]
  norm_num

lemma mkComparison_eq (th : Thresholds) (pref : Option String) (n : String)
    (ref cur : BenchObj) :
    (∃ msg, (choose_metric_for_benchmark ref pref = .error msg ∨
        choose_metric_for_benchmark cur pref = .error msg) ∧
      mkComparison th pref n ref cur =
        { name := n
          metric := (match pref with | some p => if p = "" then "unknown" else p | none => "unknown")
          ref_value := none, cur_value := none, pct_change := none
          direction := "unknown", severity := "none", time_unit := none
          notes := some ("metric error: " ++ msg), relative_change := none }) ∨
    (∃ fr tur rv fc tuc cv,
      choose_metric_for_benchmark ref pref = .ok (fr, tur, rv) ∧
      choose_metric_for_benchmark cur pref = .ok (fc, tuc, cv) ∧
      mkComparison th pref n ref cur =
        { name := n, metric := fr, ref_value := some rv, cur_value := some cv
          pct_change :=
            (if rv = 0 then none else some ((cv - rv) / |rv| * 100)).map (roundTo 4)
          direction :=
            (direction_and_severity th fr
              (if rv = 0 then none else some ((cv - rv) / |rv| * 100))).1
          severity :=
            (direction_and_severity th fr
              (if rv = 0 then none else some ((cv - rv) / |rv| * 100))).2
          time_unit := orOpt tur tuc
          notes :=
            if rv = 0 then some "ref value is zero (cannot compute pct change)" else none
          relative_change :=
            (if rv = 0 then none else some ((cv - rv) / |rv| * 100)).map
              (fun q => roundTo 6 (q / 100)) }) := by
  rcases hE : choose_metric_for_benchmark ref pref with e | ⟨fr, tur, rv⟩
  · refine Or.inl ⟨e, Or.inl rfl, ?_⟩
    unfold mkComparison
    rw [hE]
  · rcases hE2 : choose_metric_for_benchmark cur pref with e | ⟨fc, tuc, cv⟩
    · refine Or.inl ⟨e, Or.inr rfl, ?_⟩
      unfold mkComparison
      rw [hE, hE2]
    · refine Or.inr ⟨fr, tur, rv, fc, tuc, cv, rfl, rfl, ?_⟩
      unfold mkComparison
      rw [hE, hE2]

lemma mkComparison_pct_rel (th : Thresholds) (pref : Option String) (n : String)
    (ref cur : BenchObj) (p : ℚ)
    (h : (mkComparison th pref n ref cur).pct_change = some p) :
    (mkComparison th pref n ref cur).relative_change = some (p / 100) := by
  rcases mkComparison_eq th pref n ref cur with ⟨msg, _, hEq⟩ |
    ⟨fr, tur, rv, fc, tuc, cv, _, _, hEq⟩
  · rw [hEq] at h
    exact Option.noConfusion h
  · rw [hEq] at h ⊢
    dsimp only at h ⊢
    by_cases hz : rv = 0
    · simp [hz] at h
    · simp only [if_neg hz, Option.map_some'] at h ⊢
      obtain rfl : roundTo 4 ((cv - rv) / |rv| * 100) = p := Option.some.inj h
      rw [roundTo_div100]

lemma mkComparison_metric_notes (th : Thresholds) (pref : Option String) (n : String)
    {ref cur : BenchObj} {fr fc : String} {tur tuc : Option String} {rv cv : ℚ}
    (h1 : choose_metric_for_benchmark ref pref = .ok (fr, tur, rv))
    (h2 : choose_metric_for_benchmark cur pref = .ok (fc, tuc, cv)) :
    (mkComparison th pref n ref cur).metric = fr ∧
      (rv ≠ 0 → (mkComparison th pref n ref cur).notes = none) := by
  rcases mkComparison_eq th pref n ref cur with ⟨msg, herr, _⟩ |
    ⟨fr2, tur2, rv2, fc2, tuc2, cv2, g1, g2, hEq⟩
  · rcases herr with he | he
    · rw [h1] at he
      exact Except.noConfusion he
    · rw [h2] at he
      exact Except.noConfusion he
  · rw [h1] at g1
    simp only [Except.ok.injEq, Prod.mk.injEq] at g1
    obtain ⟨rfl, rfl, rfl⟩ := g1
    rw [hEq]
    exact ⟨rfl, fun hz => by simp [if_neg hz]⟩

lemma mem_compare_maps {c : Comparison} {rm cm : List (String × BenchObj)}
    {pref : Option String} {th : Thresholds} :
    c ∈ compare_maps rm cm pref th ↔ c ∈ compareEntries rm cm pref th := by
  unfold compare_maps
  exact List.mem_insertionSort keyLe

lemma mem_compareEntries {c : Comparison} {rm cm : List (String × BenchObj)}
    {pref : Option String} {th : Thresholds} (h : c ∈ compareEntries rm cm pref th) :
    ∃ n ref cur, n ∈ sortedNames rm cm ∧ alookup rm n = some ref ∧
      alookup cm n = some cur ∧ c = mkComparison th pref n ref cur := by
  unfold compareEntries at h
  rw [List.mem_filterMap] at h
  obtain ⟨n, hn, hf⟩ := h
  cases h1 : alookup rm n with
  | none => rw [h1] at hf; simp at hf
  | some ref =>
    cases h2 : alookup cm n with
    | none => rw [h1, h2] at hf; simp at hf
    | some cur =>
      rw [h1, h2] at hf
      simp only [Option.some.injEq] at hf
      exact ⟨n, ref, cur, hn, h1, h2, hf.symm⟩

lemma uniqueAux_subset {x : String} : ∀ (seen l : List String), x ∈ uniqueAux seen l → x ∈ l := by
  intro seen l
  induction l generalizing seen with
  | nil => intro h; simp [uniqueAux] at h
  | cons k rest ih =>
    intro h
    unfold uniqueAux at h
    split_ifs at h with hk
    · exact List.mem_cons_of_mem _ (ih seen h)
    · rcases List.mem_cons.mp h with rfl | h2
      · exact List.mem_cons_self _ _
      · exact List.mem_cons_of_mem _ (ih _ h2)

lemma aggregate_sev_dir {a : AggregateEntry} {comps : List Comparison} {th : Thresholds}
    (h : a ∈ aggregate_series comps th) :
    (a.aggregated_severity ≠ "none" → a.aggregated_direction = "regression") ∧
    (a.aggregated_direction = "regression" →
      ∃ s, a.aggregated_severity = classify_severity s th) ∧
    (∃ c, c ∈ comps ∧ a.kernel = (split_kernel_and_size c.name).1) := by
  unfold aggregate_series at h
  rw [List.mem_insertionSort, List.mem_filterMap] at h
  obtain ⟨key, hkey, hf⟩ := h
  dsimp only at hf
  cases hrels : List.filterMap (fun e => e.relative_change)
      (List.filter (fun c => decide ((split_kernel_and_size c.name).1 = key)) comps) with
  | nil =>
    rw [hrels] at hf
    exact Option.noConfusion hf
  | cons r rs =>
    rw [hrels] at hf
    obtain rfl := (Option.some.inj hf).symm
    have hker : ∃ c, c ∈ comps ∧ key = (split_kernel_and_size c.name).1 := by
      obtain ⟨c, hc, hck⟩ := List.mem_map.mp (uniqueAux_subset _ _ hkey)
      exact ⟨c, hc, hck.symm⟩
    refine ⟨?_, ?_, hker⟩
    · intro hs
      dsimp only at hs ⊢
      by_cases hd :
          (if |fmean (r :: rs)| * 100 < th.minor_pct then "unchanged"
           else if fmean (r :: rs) > 0 then "regression" else "improvement") = "regression"
      · exact hd
      · rw [if_neg hd] at hs
        exact absurd rfl hs
    · intro hd
      dsimp only at hd ⊢
      rw [if_pos hd]
      exact ⟨_, rfl⟩

set_option maxRecDepth 4000 in
lemma compare_maps_C3_eval :
    compare_maps exRefC3 exCurC3 none DEFAULT_THRESHOLDS = [cmpC3] := by
  have hfr : Int.fract ((-100000 : ℚ)) = 0 := by
    rw [show ((-100000 : ℚ)) = ((-100000 : ℤ) : ℚ) by norm_num, Int.fract_intCast]
  norm_num +decide [hfr, compare_maps, compareEntries, sortedNames, exRefC3, exCurC3, cmpC3,
    uniqueAux, alookup, List.insertionSort, List.orderedInsert, mkComparison,
    choose_metric_for_benchmark, firstPresent, dictGet, direction_and_severity,
    THROUGHPUT_METRICS, DEFAULT_THRESHOLDS, classify_severity, roundTo, rndHalfEven,
    orOpt, Comparison.mk.injEq]

set_option maxRecDepth 4000 in
lemma compare_maps_mixed_eval :
    compare_maps exRefMixed exCurMixed none DEFAULT_THRESHOLDS = [cmpMixed] := by
  have hfr : Int.fract ((-500000 : ℚ)) = 0 := by
    rw [show ((-500000 : ℚ)) = ((-500000 : ℤ) : ℚ) by norm_num, Int.fract_intCast]
  norm_num +decide [hfr, compare_maps, compareEntries, sortedNames, exRefMixed, exCurMixed,
    cmpMixed, uniqueAux, alookup, List.insertionSort, List.orderedInsert, mkComparison,
    choose_metric_for_benchmark, firstPresent, dictGet, direction_and_severity,
    THROUGHPUT_METRICS, DEFAULT_THRESHOLDS, classify_severity, roundTo, rndHalfEven,
    orOpt, Comparison.mk.injEq]

set_option maxRecDepth 4000 in
lemma aggregate_series_aggCmp_eval :
    aggregate_series [aggCmp] DEFAULT_THRESHOLDS = [aggEntryK] := by
  have habs : |(1 : ℚ)/10| = 1/10 := by
    rw [abs_of_nonneg]
    norm_num
  have hfr : Int.fract ((100000 : ℚ)) = 0 := by
    rw [show ((100000 : ℚ)) = ((100000 : ℤ) : ℚ) by norm_num, Int.fract_intCast]
  norm_num +decide [hfr, aggregate_series, aggCmp, aggEntryK, uniqueAux, habs,
    split_kernel_and_size, rsplitSlash, isDigits, digitsToNat, fmean,
    List.insertionSort, List.orderedInsert, aggGe, classify_severity, roundTo,
    rndHalfEven, DEFAULT_THRESHOLDS, AggregateEntry.mk.injEq]

/-! ### C7 -/

/-- C7: classify_severity is total over all rational magnitudes: it returns
"major" when magnitude_pct >= major_pct, else "moderate" when
magnitude_pct >= moderate_pct, else "minor"; it never returns "none", and a
zero or negative input (with positive thresholds) falls through both
comparisons to "minor". -/
theorem classify_severity_total_cases (magnitude_pct : ℚ) (th : Thresholds) :
    (classify_severity magnitude_pct th ≠ "none" ∧
      (classify_severity magnitude_pct th = "major" ∨
        classify_severity magnitude_pct th = "moderate" ∨
        classify_severity magnitude_pct th = "minor")) ∧
    (magnitude_pct ≥ th.major_pct → classify_severity magnitude_pct th = "major") ∧
    (¬ magnitude_pct ≥ th.major_pct → magnitude_pct ≥ th.moderate_pct →
      classify_severity magnitude_pct th = "moderate") ∧
    (¬ magnitude_pct ≥ th.major_pct → ¬ magnitude_pct ≥ th.moderate_pct →
      classify_severity magnitude_pct th = "minor") ∧
    (magnitude_pct ≤ 0 → 0 < th.moderate_pct → 0 < th.major_pct →
      classify_severity magnitude_pct th = "minor") := by
  refine ⟨⟨classify_severity_ne_none _ _, classify_severity_cases _ _⟩, ?_, ?_, ?_, ?_⟩ <;>
    · intros
      unfold classify_severity
      split_ifs <;> first | rfl | linarith

/-- C7 witness: the theorem applied at magnitude 0 and the default
thresholds. -/
theorem classify_severity_total_cases_witness :
    (classify_severity 0 DEFAULT_THRESHOLDS ≠ "none" ∧
      (classify_severity 0 DEFAULT_THRESHOLDS = "major" ∨
        classify_severity 0 DEFAULT_THRESHOLDS = "moderate" ∨
        classify_severity 0 DEFAULT_THRESHOLDS = "minor")) ∧
    classify_severity 0 DEFAULT_THRESHOLDS = "minor" := by
  obtain ⟨h1, _, _, _, h5⟩ := classify_severity_total_cases 0 DEFAULT_THRESHOLDS
  exact ⟨h1, h5 le_rfl (by norm_num [DEFAULT_THRESHOLDS]) (by norm_num [DEFAULT_THRESHOLDS])⟩

/-! ### C3 -/

/-- C3: with signed_pct = pct times -1 for throughput metrics (else 1),
signed_pct > minor_pct classifies as a regression with severity
classify_severity signed_pct, signed_pct < -minor_pct as an improvement with
severity "none", anything else as unchanged with severity "none"; and
bytes_per_second dropping from 1000 to 900 under default thresholds is a
major regression. -/
theorem direction_and_severity_classification (th : Thresholds) (metric_field : String)
    (p : ℚ) :
    ((if metric_field ∈ THROUGHPUT_METRICS then (-1 : ℚ) else 1) * p > th.minor_pct →
      direction_and_severity th metric_field (some p) =
        ("regression",
          classify_severity ((if metric_field ∈ THROUGHPUT_METRICS then (-1 : ℚ) else 1) * p) th)) ∧
    (0 ≤ th.minor_pct →
      (if metric_field ∈ THROUGHPUT_METRICS then (-1 : ℚ) else 1) * p < -th.minor_pct →
      direction_and_severity th metric_field (some p) = ("improvement", "none")) ∧
    (¬ (if metric_field ∈ THROUGHPUT_METRICS then (-1 : ℚ) else 1) * p > th.minor_pct →
      ¬ (if metric_field ∈ THROUGHPUT_METRICS then (-1 : ℚ) else 1) * p < -th.minor_pct →
      direction_and_severity th metric_field (some p) = ("unchanged", "none")) ∧
    (compare_maps exRefC3 exCurC3 none DEFAULT_THRESHOLDS).map
        (fun c => (c.name, c.metric, c.direction, c.severity, c.pct_change)) =
      [("bench", "bytes_per_second", "regression", "major", some (-10))] := by
  refine ⟨?_, ?_, ?_, ?_⟩
  · intro h
    simp only [direction_and_severity, if_pos h]
  · intro hm h
    have h2 : ¬ (if metric_field ∈ THROUGHPUT_METRICS then (-1 : ℚ) else 1) * p >
        th.minor_pct := by
      by_contra hc
      linarith
    simp only [direction_and_severity, if_neg h2, if_pos h]
  · intro h1 h2
    simp only [direction_and_severity, if_neg h1, if_neg h2]
  · norm_num +decide [compare_maps, compareEntries, sortedNames, exRefC3, exCurC3, uniqueAux,
      alookup, List.insertionSort, List.orderedInsert, mkComparison,
      choose_metric_for_benchmark, firstPresent, dictGet, direction_and_severity,
      THROUGHPUT_METRICS, DEFAULT_THRESHOLDS, classify_severity, roundTo, rndHalfEven,
      orOpt]

/-- C3 witness: the theorem applied to bytes_per_second with pct = -10 under
default thresholds. -/
theorem direction_and_severity_classification_witness :
    direction_and_severity DEFAULT_THRESHOLDS "bytes_per_second" (some (-10)) =
      ("regression",
        classify_severity
          ((if "bytes_per_second" ∈ THROUGHPUT_METRICS then (-1 : ℚ) else 1) * (-10))
          DEFAULT_THRESHOLDS) := by
  obtain ⟨h1, _, _, _⟩ :=
    direction_and_severity_classification DEFAULT_THRESHOLDS "bytes_per_second" (-10)
  exact h1 (by norm_num +decide [THROUGHPUT_METRICS, DEFAULT_THRESHOLDS])

/-! ### C4 -/

/-- C4: for every Comparison produced by compare_maps and every aggregate
entry produced by aggregate_series, a severity (resp. aggregated_severity)
different from "none" implies direction (resp. aggregated_direction) equals
"regression". -/
theorem severity_ne_none_implies_regression :
    (∀ (rm cm : List (String × BenchObj)) (pref : Option String) (th : Thresholds)
      (c : Comparison), c ∈ compare_maps rm cm pref th →
      c.severity ≠ "none" → c.direction = "regression") ∧
    (∀ (comps : List Comparison) (th : Thresholds) (a : AggregateEntry),
      a ∈ aggregate_series comps th →
      a.aggregated_severity ≠ "none" → a.aggregated_direction = "regression") := by
  constructor
  · intro rm cm pref th c hc hs
    obtain ⟨n, ref, cur, _, _, _, rfl⟩ := mem_compareEntries (mem_compare_maps.mp hc)
    exact (mkComparison_sev_dir th pref n ref cur).1 hs
  · intro comps th a ha hs
    exact (aggregate_sev_dir ha).1 hs

/-- C4 witness: the invariant applied to the concrete throughput regression
and to the concrete aggregate entry. -/
theorem severity_ne_none_implies_regression_witness :
    (cmpC3 ∈ compare_maps exRefC3 exCurC3 none DEFAULT_THRESHOLDS ∧
      cmpC3.severity ≠ "none" ∧ cmpC3.direction = "regression") ∧
    (aggEntryK ∈ aggregate_series [aggCmp] DEFAULT_THRESHOLDS ∧
      aggEntryK.aggregated_severity ≠ "none" ∧
      aggEntryK.aggregated_direction = "regression") := by
  have hm : cmpC3 ∈ compare_maps exRefC3 exCurC3 none DEFAULT_THRESHOLDS := by
    rw [compare_maps_C3_eval]
    exact List.mem_singleton.mpr rfl
  have ha : aggEntryK ∈ aggregate_series [aggCmp] DEFAULT_THRESHOLDS := by
    rw [aggregate_series_aggCmp_eval]
    exact List.mem_singleton.mpr rfl
  have hs : cmpC3.severity ≠ "none" := by decide
  have has : aggEntryK.aggregated_severity ≠ "none" := by decide
  exact ⟨⟨hm, hs, severity_ne_none_implies_regression.1 _ _ _ _ _ hm hs⟩,
    ⟨ha, has, severity_ne_none_implies_regression.2 _ _ _ ha has⟩⟩

/-! ### C10 -/

/-- C10: every Comparison produced by compare_maps with direction
"regression" has severity in the set of minor, moderate and major, never
"none", because the regression branch always invokes the classifier. -/
theorem regression_severity_never_none :
    ∀ (rm cm : List (String × BenchObj)) (pref : Option String) (th : Thresholds)
      (c : Comparison), c ∈ compare_maps rm cm pref th → c.direction = "regression" →
      (c.severity = "minor" ∨ c.severity = "moderate" ∨ c.severity = "major") ∧
        c.severity ≠ "none" := by
  intro rm cm pref th c hc hd
  obtain ⟨n, ref, cur, _, _, _, rfl⟩ := mem_compareEntries (mem_compare_maps.mp hc)
  obtain ⟨s, hs⟩ := (mkComparison_sev_dir th pref n ref cur).2 hd
  rw [hs]
  refine ⟨?_, classify_severity_ne_none s th⟩
  rcases classify_severity_cases s th with h | h | h
  · exact Or.inr (Or.inr h)
  · exact Or.inr (Or.inl h)
  · exact Or.inl h

/-- C10 witness: the concrete throughput regression has severity "major". -/
theorem regression_severity_never_none_witness :
    cmpC3.direction = "regression" ∧
      (cmpC3.severity = "minor" ∨ cmpC3.severity = "moderate" ∨ cmpC3.severity = "major") ∧
      cmpC3.severity ≠ "none" := by
  have hm : cmpC3 ∈ compare_maps exRefC3 exCurC3 none DEFAULT_THRESHOLDS := by
    rw [compare_maps_C3_eval]
    exact List.mem_singleton.mpr rfl
  exact ⟨rfl, regression_severity_never_none _ _ _ _ _ hm rfl⟩

/-! ### C8 -/

/-- C8: for every Comparison produced by compare_maps with a present
pct_change, relative_change equals pct_change divided by 100, even though the
source rounds the unrounded percent to 4 decimals and the unrounded fraction
to 6 decimals independently. -/
theorem relative_change_eq_pct_div_100 :
    ∀ (rm cm : List (String × BenchObj)) (pref : Option String) (th : Thresholds)
      (c : Comparison) (p : ℚ), c ∈ compare_maps rm cm pref th →
      c.pct_change = some p → c.relative_change = some (p / 100) := by
  intro rm cm pref th c p hc hp
  obtain ⟨n, ref, cur, _, _, _, rfl⟩ := mem_compareEntries (mem_compare_maps.mp hc)
  exact mkComparison_pct_rel th pref n ref cur p hp

/-- C8 witness: the concrete throughput regression has pct_change -10 and
relative_change -10/100. -/
theorem relative_change_eq_pct_div_100_witness :
    cmpC3.pct_change = some (-10) ∧ cmpC3.relative_change = some ((-10 : ℚ) / 100) := by
  have hm : cmpC3 ∈ compare_maps exRefC3 exCurC3 none DEFAULT_THRESHOLDS := by
    rw [compare_maps_C3_eval]
    exact List.mem_singleton.mpr rfl
  exact ⟨rfl, relative_change_eq_pct_div_100 _ _ _ _ _ _ hm rfl⟩

/-! ### C9 -/

/-- C9: when metric resolution succeeds on both sides, the metric recorded
in the Comparison is the field resolved on the reference record; the current
record's resolved field is discarded and (for a nonzero reference value) no
note records a mismatch. Concretely, a reference with real_time compared
against a current record with only cpu_time reports metric "real_time" with
no notes. -/
theorem metric_from_reference_side :
    (∀ (rm cm : List (String × BenchObj)) (pref : Option String) (th : Thresholds)
      (name : String) (refObj curObj : BenchObj) (fr fc : String)
      (tur tuc : Option String) (rv cv : ℚ) (c : Comparison),
      alookup rm name = some refObj → alookup cm name = some curObj →
      choose_metric_for_benchmark refObj pref = .ok (fr, tur, rv) →
      choose_metric_for_benchmark curObj pref = .ok (fc, tuc, cv) →
      c ∈ compare_maps rm cm pref th → c.name = name →
      c.metric = fr ∧ (rv ≠ 0 → c.notes = none)) ∧
    (choose_metric_for_benchmark { fields := [("real_time", 100)] } none =
        .ok ("real_time", none, 100) ∧
      choose_metric_for_benchmark { fields := [("cpu_time", 50)] } none =
        .ok ("cpu_time", none, 50) ∧
      (compare_maps exRefMixed exCurMixed none DEFAULT_THRESHOLDS).map
          (fun c => (c.metric, c.notes)) = [("real_time", none)]) := by
  refine ⟨?_, rfl, rfl, ?_⟩
  · intro rm cm pref th name refObj curObj fr fc tur tuc rv cv c h1 h2 h3 h4 hc hname
    obtain ⟨n, ref, cur, hn, ha1, ha2, rfl⟩ := mem_compareEntries (mem_compare_maps.mp hc)
    have hnn : n = name := by rw [← hname, mkComparison_name]
    subst hnn
    rw [h1] at ha1
    rw [h2] at ha2
    obtain rfl := Option.some.inj ha1
    obtain rfl := Option.some.inj ha2
    exact mkComparison_metric_notes th pref n h3 h4
  · rw [compare_maps_mixed_eval]
    rfl

/-- C9 witness: the general property applied to the mixed-metric fixture. -/
theorem metric_from_reference_side_witness :
    cmpMixed.metric = "real_time" ∧ cmpMixed.notes = none := by
  have hm : cmpMixed ∈ compare_maps exRefMixed exCurMixed none DEFAULT_THRESHOLDS := by
    rw [compare_maps_mixed_eval]
    exact List.mem_singleton.mpr rfl
  obtain ⟨g1, g2⟩ := metric_from_reference_side.1 exRefMixed exCurMixed none
    DEFAULT_THRESHOLDS "x" { fields := [("real_time", 100)] }
    { fields := [("cpu_time", 50)] } "real_time" "cpu_time" none none 100 50 cmpMixed
    rfl rfl rfl rfl hm rfl
  exact ⟨g1, g2 (by norm_num)⟩

/-! ### C1 -/

lemma rsplitSlash_eq_none {l : List Char} (h : '/' ∉ l) : rsplitSlash l = none := by
  induction l with
  | nil => rfl
  | cons c cs ih =>
    have hc : c ≠ '/' := fun hcc => h (hcc ▸ List.mem_cons_self _ _)
    have hcs : '/' ∉ cs := fun hm => h (List.mem_cons_of_mem _ hm)
    unfold rsplitSlash
    rw [ih hcs]
    simp [hc]

lemma rsplitSlash_append (base suf : List Char) (h : '/' ∉ suf) :
    rsplitSlash (base ++ '/' :: suf) = some (base, suf) := by
  induction base with
  | nil =>
    rw [List.nil_append]
    simp only [rsplitSlash]
    rw [rsplitSlash_eq_none h]
    simp
  | cons c cs ih =>
    rw [List.cons_append]
    simp only [rsplitSlash]
    rw [ih]

/-- Counterexample to C1 as stated: for the name "a/b", whose suffix "b"
after the last slash is not numeric, the grouping key used by
aggregate_series is "a", not the whole unchanged name "a/b". -/
theorem grouping_key_counterexample :
    split_kernel_and_size "a/b" = ("a", none) ∧
    (aggregate_series [cmpSlash] DEFAULT_THRESHOLDS).map (fun a => a.kernel) = ["a"] ∧
    ("a" : String) ≠ "a/b" := by
  have hfr : Int.fract ((10000 : ℚ)) = 0 := by
    rw [show ((10000 : ℚ)) = ((10000 : ℤ) : ℚ) by norm_num, Int.fract_intCast]
  have habs : |(1 : ℚ)/100| = 1/100 := by
    rw [abs_of_nonneg]
    norm_num
  refine ⟨by decide, ?_, by decide⟩
  norm_num +decide [aggregate_series, cmpSlash, uniqueAux, hfr, habs,
    split_kernel_and_size, rsplitSlash, isDigits, digitsToNat, fmean,
    List.insertionSort, List.orderedInsert, aggGe, classify_severity, roundTo,
    rndHalfEven, DEFAULT_THRESHOLDS]

/-- C1 amended: splitting a benchmark name on its last slash always yields
the prefix as the kernel key whenever a slash is present, whether or not the
suffix is numeric; a purely numeric suffix additionally becomes the size
component, a non-numeric one yields size none. Only a name with no slash at
all is its own key, and every aggregate kernel is such a split prefix. -/
theorem split_kernel_strips_any_suffix :
    (∀ (base suf : List Char), '/' ∉ suf → isDigits suf = false →
      split_kernel_and_size (String.mk (base ++ '/' :: suf)) = (String.mk base, none)) ∧
    (∀ (base suf : List Char), '/' ∉ suf → isDigits suf = true →
      split_kernel_and_size (String.mk (base ++ '/' :: suf)) =
        (String.mk base, some (digitsToNat suf))) ∧
    (∀ name : String, '/' ∉ name.data → split_kernel_and_size name = (name, none)) ∧
    (∀ (comps : List Comparison) (th : Thresholds) (a : AggregateEntry),
      a ∈ aggregate_series comps th →
      ∃ c, c ∈ comps ∧ a.kernel = (split_kernel_and_size c.name).1) := by
  refine ⟨?_, ?_, ?_, ?_⟩
  · intro base suf hs hd
    unfold split_kernel_and_size
    rw [show (String.mk (base ++ '/' :: suf)).data = base ++ '/' :: suf from rfl]
    rw [rsplitSlash_append base suf hs]
    simp [hd]
  · intro base suf hs hd
    unfold split_kernel_and_size
    rw [show (String.mk (base ++ '/' :: suf)).data = base ++ '/' :: suf from rfl]
    rw [rsplitSlash_append base suf hs]
    simp [hd]
  · intro name hs
    unfold split_kernel_and_size
    rw [rsplitSlash_eq_none hs]
  · intro comps th a ha
    exact (aggregate_sev_dir ha).2.2

/-- C1 witness: the amended splitting rule applied to the concrete names
"a/b" (non-numeric suffix) and "a/12" (numeric suffix). -/
theorem split_kernel_strips_any_suffix_witness :
    split_kernel_and_size (String.mk (['a'] ++ '/' :: ['b'])) = (String.mk ['a'], none) ∧
    split_kernel_and_size (String.mk (['a'] ++ '/' :: ['1', '2'])) =
      (String.mk ['a'], some (digitsToNat ['1', '2'])) := by
  exact ⟨split_kernel_strips_any_suffix.1 ['a'] ['b'] (by decide) (by decide),
    split_kernel_strips_any_suffix.2.1 ['a'] ['1', '2'] (by decide) (by decide)⟩

/-! ### C2 -/

lemma strLtb_asymm : ∀ a b : List Char, strLtb a b = true → strLtb b a = false := by
  intro a
  induction a with
  | nil =>
    intro b h
    cases b with
    | nil => simp [strLtb] at h
    | cons y ys => rfl
  | cons x xs ih =>
    intro b h
    cases b with
    | nil => simp [strLtb] at h
    | cons y ys =>
      simp only [strLtb] at h ⊢
      by_cases h1 : x.toNat < y.toNat
      · have h2 : ¬ y.toNat < x.toNat := by omega
        have h3 : ¬ y.toNat = x.toNat := by omega
        simp [h2, h3]
      · by_cases h2 : x.toNat = y.toNat
        · rw [if_neg h1, if_pos h2] at h
          have h3 : ¬ y.toNat < x.toNat := by omega
          have h4 : y.toNat = x.toNat := by omega
          simp [h3, h4, ih ys h]
        · rw [if_neg h1, if_neg h2] at h
          exact absurd h (by simp)

lemma strLtb_trans_false : ∀ a b c : List Char,
    strLtb b a = false → strLtb c b = false → strLtb c a = false := by
  intro a
  induction a with
  | nil =>
    intro b c h1 h2
    cases c with
    | nil => rfl
    | cons z zs => rfl
  | cons x xs ih =>
    intro b c h1 h2
    cases b with
    | nil => exact absurd h1 (by simp [strLtb])
    | cons y ys =>
      cases c with
      | nil => exact absurd h2 (by simp [strLtb])
      | cons z zs =>
        simp only [strLtb] at h1 h2 ⊢
        by_cases hyx : y.toNat < x.toNat
        · rw [if_pos hyx] at h1
          exact absurd h1 (by simp)
        · by_cases hzy : z.toNat < y.toNat
          · rw [if_pos hzy] at h2
            exact absurd h2 (by simp)
          · rw [if_neg hyx] at h1
            rw [if_neg hzy] at h2
            by_cases heq : y.toNat = x.toNat
            · rw [if_pos heq] at h1
              by_cases hzeq : z.toNat = y.toNat
              · rw [if_pos hzeq] at h2
                have hzx1 : ¬ z.toNat < x.toNat := by omega
                have hzx2 : z.toNat = x.toNat := by omega
                rw [if_neg hzx1, if_pos hzx2]
                exact ih ys zs h1 h2
              · have hzx1 : ¬ z.toNat < x.toNat := by omega
                have hzx2 : ¬ z.toNat = x.toNat := by omega
                rw [if_neg hzx1, if_neg hzx2]
            · have hzx1 : ¬ z.toNat < x.toNat := by omega
              have hzx2 : ¬ z.toNat = x.toNat := by omega
              rw [if_neg hzx1, if_neg hzx2]

instance : IsTotal String strLe where
  total s t := by
    unfold strLe
    cases h : strLtb t.data s.data
    · exact Or.inl rfl
    · exact Or.inr (strLtb_asymm _ _ h)

instance : IsTrans String strLe where
  trans a b c h1 h2 := strLtb_trans_false a.data b.data c.data h1 h2

/-- Stability of insertion sort: filtering by a predicate whose holders are
pairwise related is unchanged by the sort. -/
lemma filter_insertionSort {α : Type} (r : α → α → Prop) [DecidableRel r] (l : List α)
    (p : α → Bool) (hp : ∀ a b, p a = true → p b = true → r a b) :
    (List.insertionSort r l).filter p = l.filter p := by
  have hsub : List.Sublist (l.filter p) l := List.filter_sublist l
  have hpw : (l.filter p).Pairwise r :=
    List.pairwise_of_forall_mem_list fun a ha b hb =>
      hp a b (List.of_mem_filter ha) (List.of_mem_filter hb)
  have h1 : List.Sublist (l.filter p) (List.insertionSort r l) :=
    List.sublist_insertionSort hpw hsub
  have h2 : List.Sublist ((l.filter p).filter p) ((List.insertionSort r l).filter p) :=
    h1.filter p
  have h3 : (l.filter p).filter p = l.filter p := by simp [List.filter_filter]
  rw [h3] at h2
  have h4 : List.Perm ((List.insertionSort r l).filter p) (l.filter p) :=
    (List.perm_insertionSort r l).filter p
  exact (h2.eq_of_length h4.length_eq.symm).symm

lemma alookup_isSome {m : List (String × BenchObj)} {k : String}
    (h : k ∈ m.map Prod.fst) : ∃ v, alookup m k = some v := by
  induction m with
  | nil => simp at h
  | cons p rest ih =>
    by_cases hk : p.1 = k
    · exact ⟨p.2, by simp [alookup, hk]⟩
    · have hrest : k ∈ rest.map Prod.fst := by
        rcases List.mem_map.mp h with ⟨q, hq, hqk⟩
        rcases List.mem_cons.mp hq with rfl | hq2
        · exact absurd hqk hk
        · exact List.mem_map.mpr ⟨q, hq2, hqk⟩
      obtain ⟨v, hv⟩ := ih hrest
      exact ⟨v, by simp [alookup, hk, hv]⟩

lemma mem_sortedNames_both {n : String} {rm cm : List (String × BenchObj)}
    (h : n ∈ sortedNames rm cm) :
    n ∈ rm.map Prod.fst ∧ n ∈ cm.map Prod.fst := by
  unfold sortedNames at h
  rw [List.mem_insertionSort] at h
  have h2 := uniqueAux_subset _ _ h
  rw [List.mem_filter] at h2
  exact ⟨h2.1, by simpa using h2.2⟩

lemma filterMap_names (f : String → Option Comparison) :
    ∀ names : List String, (∀ n ∈ names, ∃ c, f n = some c ∧ c.name = n) →
    (names.filterMap f).map (fun c => c.name) = names := by
  intro names
  induction names with
  | nil => intro _; rfl
  | cons n rest ih =>
    intro h
    obtain ⟨c, hc, hcn⟩ := h n (List.mem_cons_self _ _)
    rw [List.filterMap_cons, hc]
    rw [List.map_cons, hcn, ih (fun m hm => h m (List.mem_cons_of_mem _ hm))]

lemma compareEntries_map_name (rm cm : List (String × BenchObj)) (pref : Option String)
    (th : Thresholds) :
    (compareEntries rm cm pref th).map (fun c => c.name) = sortedNames rm cm := by
  unfold compareEntries
  apply filterMap_names
  intro n hn
  obtain ⟨h1, h2⟩ := mem_sortedNames_both hn
  obtain ⟨ref, href⟩ := alookup_isSome h1
  obtain ⟨cur, hcur⟩ := alookup_isSome h2
  refine ⟨mkComparison th pref n ref cur, ?_, mkComparison_name th pref n ref cur⟩
  simp only [href, hcur]

lemma sortKey_snd (c : Comparison) : (sortKey c).2 = -(c.pct_change.getD 0) := by
  unfold sortKey
  cases c.pct_change with
  | none => simp
  | some p =>
    by_cases hp : p = 0
    · simp [hp]
    · simp [hp]

lemma keyLe_regression_first {a b : Comparison} (h : keyLe a b)
    (hb : b.direction = "regression") : a.direction = "regression" := by
  by_cases ha : a.direction = "regression"
  · exact ha
  · exfalso
    unfold keyLe sortKey at h
    simp [ha, hb] at h

lemma keyLe_pct_order {a b : Comparison} (h : keyLe a b)
    (ha : a.direction = "regression") (hb : b.direction = "regression") :
    b.pct_change.getD 0 ≤ a.pct_change.getD 0 := by
  unfold keyLe at h
  rcases h with h | ⟨_, h⟩
  · exfalso
    unfold sortKey at h
    simp [ha, hb] at h
  · rw [sortKey_snd, sortKey_snd] at h
    exact neg_le_neg_iff.mp h

set_option maxRecDepth 4000 in
lemma compare_maps_sort_eval :
    compare_maps exRefSort exCurSort none DEFAULT_THRESHOLDS = [cmpSortA, cmpSortB] := by
  have hfr1 : Int.fract ((50000 : ℚ)) = 0 := by
    rw [show ((50000 : ℚ)) = ((50000 : ℤ) : ℚ) by norm_num, Int.fract_intCast]
  have hfr2 : Int.fract ((-110000 : ℚ)) = 0 := by
    rw [show ((-110000 : ℚ)) = ((-110000 : ℤ) : ℚ) by norm_num, Int.fract_intCast]
  norm_num +decide [compare_maps, compareEntries, sortedNames, exRefSort, exCurSort,
    cmpSortA, cmpSortB, uniqueAux, alookup, List.insertionSort, List.orderedInsert,
    strLe, strLtb, mkComparison, choose_metric_for_benchmark, firstPresent, dictGet,
    direction_and_severity, THROUGHPUT_METRICS, DEFAULT_THRESHOLDS, classify_severity,
    roundTo, rndHalfEven, orOpt, keyLe, sortKey, hfr1, hfr2, Comparison.mk.injEq]

/-- Counterexample to C2 as stated: on the sort-order fixture both output
entries are regressions, the first has pct_change +5 and the second -11, so
the output is NOT ordered by decreasing absolute value of pct_change (11 > 5
yet the magnitude-11 entry comes second). -/
theorem compare_maps_sort_counterexample :
    (compare_maps exRefSort exCurSort none DEFAULT_THRESHOLDS).map
        (fun c => (c.name, c.direction, c.pct_change)) =
      [("a", "regression", some 5), ("b", "regression", some (-11))] ∧
    ¬ |(-11 : ℚ)| ≤ |(5 : ℚ)| := by
  constructor
  · rw [compare_maps_sort_eval]
    rfl
  · have h1 : |(-11 : ℚ)| = 11 := by
      rw [abs_of_nonpos] <;> norm_num
    have h2 : |(5 : ℚ)| = 5 := by
      rw [abs_of_nonneg]
      norm_num
    rw [h1, h2]
    norm_num

/-- C2 amended: compare_maps returns a permutation of the per-name
comparison list that is sorted by the lexicographic key (direction is not
"regression", negated pct_change with missing pct_change as zero): all
regressions come first, within the regression block entries are ordered by
decreasing SIGNED pct_change (not absolute value), and entries with equal
sort keys keep the order of the pre-sort list, whose names are exactly the
lexicographically sorted intersection of the two key sets. -/
theorem compare_maps_sort_properties (rm cm : List (String × BenchObj))
    (pref : Option String) (th : Thresholds) :
    List.Perm (compare_maps rm cm pref th) (compareEntries rm cm pref th) ∧
    (compare_maps rm cm pref th).Pairwise keyLe ∧
    (compare_maps rm cm pref th).Pairwise
      (fun a b => b.direction = "regression" → a.direction = "regression") ∧
    (compare_maps rm cm pref th).Pairwise
      (fun a b => a.direction = "regression" → b.direction = "regression" →
        b.pct_change.getD 0 ≤ a.pct_change.getD 0) ∧
    (∀ k, (compare_maps rm cm pref th).filter (fun c => decide (sortKey c = k)) =
      (compareEntries rm cm pref th).filter (fun c => decide (sortKey c = k))) ∧
    (compareEntries rm cm pref th).map (fun c => c.name) = sortedNames rm cm ∧
    (sortedNames rm cm).Sorted strLe := by
  have hsorted : (compare_maps rm cm pref th).Pairwise keyLe :=
    List.sorted_insertionSort keyLe (compareEntries rm cm pref th)
  refine ⟨List.perm_insertionSort keyLe _, hsorted, ?_, ?_, ?_,
    compareEntries_map_name rm cm pref th, ?_⟩
  · exact hsorted.imp fun hab hb => keyLe_regression_first hab hb
  · exact hsorted.imp fun hab ha hb => keyLe_pct_order hab ha hb
  · intro k
    apply filter_insertionSort
    intro a b hpa hpb
    have hka : sortKey a = k := of_decide_eq_true hpa
    have hkb : sortKey b = k := of_decide_eq_true hpb
    unfold keyLe
    exact Or.inr ⟨by rw [hka, hkb], by rw [hka, hkb]⟩
  · unfold sortedNames
    exact List.sorted_insertionSort strLe _

/-- C2 witness: the amended ordering statement instantiated on the concrete
two-regression fixture. -/
theorem compare_maps_sort_properties_witness :
    List.Perm (compare_maps exRefSort exCurSort none DEFAULT_THRESHOLDS)
        (compareEntries exRefSort exCurSort none DEFAULT_THRESHOLDS) ∧
    (compare_maps exRefSort exCurSort none DEFAULT_THRESHOLDS).Pairwise keyLe ∧
    (compareEntries exRefSort exCurSort none DEFAULT_THRESHOLDS).map (fun c => c.name) =
      sortedNames exRefSort exCurSort :=
  ⟨(compare_maps_sort_properties exRefSort exCurSort none DEFAULT_THRESHOLDS).1,
    (compare_maps_sort_properties exRefSort exCurSort none DEFAULT_THRESHOLDS).2.1,
    (compare_maps_sort_properties exRefSort exCurSort none DEFAULT_THRESHOLDS).2.2.2.2.2.1⟩

/-! ### C5 -/

lemma regression_magnitude_nonneg (c : Comparison) : 0 ≤ regression_magnitude_pct c := by
  unfold regression_magnitude_pct
  by_cases hd : c.direction ≠ "regression"
  · simp [hd]
  · rw [if_neg hd]
    cases c.pct_change with
    | none => exact le_refl 0
    | some p => split_ifs <;> exact le_max_left 0 _

lemma findWorst_spec (regs : List Comparison) :
    (findWorst regs = (none, 0) ∧ regs = []) ∨
    (∃ w l₁ l₂, findWorst regs = (some w, regression_magnitude_pct w) ∧
      regs = l₁ ++ w :: l₂ ∧
      (∀ c ∈ l₁, regression_magnitude_pct c ≤ regression_magnitude_pct w) ∧
      (∀ c ∈ l₂, regression_magnitude_pct c < regression_magnitude_pct w)) := by
  induction regs using List.reverseRecOn with
  | nil => exact Or.inl ⟨rfl, rfl⟩
  | append_singleton l a ih =>
    have hstep : findWorst (l ++ [a]) = worstStep (findWorst l) a := by
      unfold findWorst
      rw [List.foldl_append]
      rfl
    rcases ih with ⟨hw, rfl⟩ | ⟨w, l₁, l₂, hw, rfl, hle, hlt⟩
    · refine Or.inr ⟨a, [], [], ?_, rfl, by simp, by simp⟩
      rw [hstep, hw]
      unfold worstStep
      rw [if_pos (regression_magnitude_nonneg a)]
    · by_cases hcmp : regression_magnitude_pct w ≤ regression_magnitude_pct a
      · refine Or.inr ⟨a, l₁ ++ w :: l₂, [], ?_, by simp, ?_, by simp⟩
        · rw [hstep, hw]
          unfold worstStep
          rw [if_pos hcmp]
        · intro c hc
          rcases List.mem_append.mp hc with h1 | h2
          · exact le_trans (hle c h1) hcmp
          · rcases List.mem_cons.mp h2 with rfl | h3
            · exact hcmp
            · exact le_trans (le_of_lt (hlt c h3)) hcmp
      · refine Or.inr ⟨w, l₁, l₂ ++ [a], ?_, by simp, hle, ?_⟩
        · rw [hstep, hw]
          unfold worstStep
          rw [if_neg hcmp]
        · intro c hc
          rcases List.mem_append.mp hc with h1 | h2
          · exact hlt c h1
          · rw [List.mem_singleton.mp h2]
            exact lt_of_not_le hcmp

lemma evaluate_worst_eq {comps : List Comparison} {failOn : String} {maxTop : Option ℚ}
    {r : GateResult} (h : evaluate_ci_gate comps failOn maxTop = .ok r) :
    r.worst_regression =
      (findWorst (comps.filter (fun c => decide (c.direction = "regression")))).1 := by
  unfold evaluate_ci_gate at h
  dsimp only at h
  cases hsr : severityReasons failOn (threshold_rank failOn)
      (comps.filter (fun c => decide (c.direction = "regression"))) with
  | error e =>
    rw [hsr] at h
    exact Except.noConfusion h
  | ok rs =>
    rw [hsr] at h
    obtain rfl := (Except.ok.inj h).symm
    rfl

/-- C5: for every successful gate evaluation, worst_regression is absent iff
there are no regressions, and when present it is a regression of maximal
regression_magnitude_pct such that every regression AFTER it in the input
order has strictly smaller magnitude - i.e. exact ties are resolved in
favour of the later-encountered candidate, because the tracking comparison
is a non-strict >=. -/
theorem worst_regression_characterization :
    ∀ (comps : List Comparison) (failOn : String) (maxTop : Option ℚ) (r : GateResult),
      evaluate_ci_gate comps failOn maxTop = .ok r →
      (r.worst_regression = none ↔
          comps.filter (fun c => decide (c.direction = "regression")) = []) ∧
      (∀ w, r.worst_regression = some w →
        w ∈ comps.filter (fun c => decide (c.direction = "regression")) ∧
        (∀ c ∈ comps.filter (fun c => decide (c.direction = "regression")),
          regression_magnitude_pct c ≤ regression_magnitude_pct w) ∧
        ∃ l₁ l₂, comps.filter (fun c => decide (c.direction = "regression")) =
            l₁ ++ w :: l₂ ∧
          ∀ c ∈ l₂, regression_magnitude_pct c < regression_magnitude_pct w) := by
  intro comps failOn maxTop r hr
  rw [evaluate_worst_eq hr]
  rcases findWorst_spec (comps.filter (fun c => decide (c.direction = "regression"))) with
    ⟨hw, hnil⟩ | ⟨w, l₁, l₂, hw, hsplit, hle, hlt⟩
  · rw [hw]
    exact ⟨by simp [hnil], fun w hww => Option.noConfusion hww⟩
  · rw [hw]
    constructor
    · simp [hsplit]
    · intro w2 hww
      obtain rfl := Option.some.inj hww
      refine ⟨?_, ?_, l₁, l₂, hsplit, hlt⟩
      · rw [hsplit]
        exact List.mem_append.mpr (Or.inr (List.mem_cons_self _ _))
      · intro c hc
        rw [hsplit] at hc
        rcases List.mem_append.mp hc with h1 | h2
        · exact hle c h1
        · rcases List.mem_cons.mp h2 with rfl | h3
          · exact le_refl _
          · exact le_of_lt (hlt c h3)

lemma evaluate_gate_sort_eval :
    evaluate_ci_gate [cmpSortA, cmpSortB] "major" none = .ok gateResSort := rfl

/-- C5 witness: the characterization applied to the concrete two-regression
gate run, whose worst regression is cmpSortB with magnitude 11. -/
theorem worst_regression_characterization_witness :
    (gateResSort.worst_regression = none ↔
        List.filter (fun c => decide (c.direction = "regression")) [cmpSortA, cmpSortB] = []) ∧
    (∀ w, gateResSort.worst_regression = some w →
      w ∈ List.filter (fun c => decide (c.direction = "regression")) [cmpSortA, cmpSortB] ∧
      (∀ c ∈ List.filter (fun c => decide (c.direction = "regression")) [cmpSortA, cmpSortB],
        regression_magnitude_pct c ≤ regression_magnitude_pct w) ∧
      ∃ l₁ l₂, List.filter (fun c => decide (c.direction = "regression"))
          [cmpSortA, cmpSortB] = l₁ ++ w :: l₂ ∧
        ∀ c ∈ l₂, regression_magnitude_pct c < regression_magnitude_pct w) :=
  worst_regression_characterization [cmpSortA, cmpSortB] "major" none gateResSort
    evaluate_gate_sort_eval

/-! ### C6 -/

lemma threshold_rank_pos {s : String} (h : s ≠ "none") : 1 ≤ threshold_rank s := by
  unfold threshold_rank
  split_ifs with h1 h2 h3 h4 <;> first | exact absurd h1 h | omega

lemma severityReasons_ok (failOn : String) (thRank : ℕ) :
    ∀ regs : List Comparison,
      (∀ c ∈ regs, thRank ≤ severity_rank c.severity → c.pct_change ≠ none) →
      ∃ rs, severityReasons failOn thRank regs = .ok rs ∧
        (rs = [] ↔ ∀ c ∈ regs, severity_rank c.severity < thRank) := by
  intro regs
  induction regs with
  | nil => exact fun _ => ⟨[], rfl, by simp⟩
  | cons c rest ih =>
    intro h
    obtain ⟨rs, hrs, hiff⟩ := ih (fun d hd => h d (List.mem_cons_of_mem _ hd))
    by_cases hbr : thRank ≤ severity_rank c.severity
    · cases hp : c.pct_change with
      | none => exact absurd hp (h c (List.mem_cons_self _ _) hbr)
      | some p =>
        refine ⟨GateReason.severityBreach failOn c.name c.metric p :: rs, ?_, ?_⟩
        · unfold severityReasons
          rw [if_pos hbr, hp, hrs]
          rfl
        · constructor
          · intro hcon
            exact absurd hcon (List.cons_ne_nil _ _)
          · intro hall
            exact absurd hbr (not_le.mpr (hall c (List.mem_cons_self _ _)))
    · refine ⟨rs, ?_, ?_⟩
      · unfold severityReasons
        rw [if_neg hbr]
        exact hrs
      · rw [hiff]
        constructor
        · intro hall d hd
          rcases List.mem_cons.mp hd with rfl | h2
          · exact not_le.mp hbr
          · exact hall d h2
        · exact fun hall d hd => hall d (List.mem_cons_of_mem _ hd)

/-- C6: under the spec input contract (a usable fail_on_severity and
Comparisons whose non-none severity comes with a present pct_change, as
compare_maps guarantees), evaluate_ci_gate never raises; failed is true iff
the reasons list is non-empty; and an empty comparison list, or one with no
regressions, no severity breaches and a positive (or absent) ceiling, yields
failed = false. -/
theorem ci_gate_failed_iff_reasons :
    ∀ (comps : List Comparison) (failOn : String) (maxTop : Option ℚ),
      (∀ c ∈ comps, c.severity ≠ "none" → c.pct_change ≠ none) →
      failOn ≠ "none" →
      ∃ r, evaluate_ci_gate comps failOn maxTop = .ok r ∧
        (r.failed = true ↔ r.reasons ≠ []) ∧
        (comps = [] → (∀ t, maxTop = some t → 0 < t) → r.failed = false) ∧
        (comps.filter (fun c => decide (c.direction = "regression")) = [] →
          (∀ c ∈ comps, severity_rank c.severity < threshold_rank failOn) →
          (∀ t, maxTop = some t → 0 < t) → r.failed = false) := by
  intro comps failOn maxTop hpct hfail
  have hreg : ∀ c ∈ comps.filter (fun c => decide (c.direction = "regression")),
      threshold_rank failOn ≤ severity_rank c.severity → c.pct_change ≠ none := by
    intro c hc hrank
    apply hpct c (List.mem_of_mem_filter hc)
    intro hnone
    rw [hnone] at hrank
    have h1 := threshold_rank_pos hfail
    simp [severity_rank] at hrank
    omega
  obtain ⟨rs, hrs, hiff⟩ :=
    severityReasons_ok failOn (threshold_rank failOn)
      (comps.filter (fun c => decide (c.direction = "regression"))) hreg
  have heval : evaluate_ci_gate comps failOn maxTop = .ok
      { failed := decide (0 <
          (match maxTop with
           | some ceiling =>
             if ceiling ≤ (findWorst
                 (comps.filter (fun c => decide (c.direction = "regression")))).2 then
               rs ++ [match (findWorst
                   (comps.filter (fun c => decide (c.direction = "regression")))).1 with
                 | some w => GateReason.topBreachWorst w.name w.metric
                     (findWorst
                       (comps.filter (fun c => decide (c.direction = "regression")))).2 ceiling
                 | none => GateReason.topBreachGeneric
                     (findWorst
                       (comps.filter (fun c => decide (c.direction = "regression")))).2 ceiling]
             else rs
           | none => rs).length)
        reasons :=
          (match maxTop with
           | some ceiling =>
             if ceiling ≤ (findWorst
                 (comps.filter (fun c => decide (c.direction = "regression")))).2 then
               rs ++ [match (findWorst
                   (comps.filter (fun c => decide (c.direction = "regression")))).1 with
                 | some w => GateReason.topBreachWorst w.name w.metric
                     (findWorst
                       (comps.filter (fun c => decide (c.direction = "regression")))).2 ceiling
                 | none => GateReason.topBreachGeneric
                     (findWorst
                       (comps.filter (fun c => decide (c.direction = "regression")))).2 ceiling]
             else rs
           | none => rs)
        worst_regression :=
          (findWorst (comps.filter (fun c => decide (c.direction = "regression")))).1 } := by
    unfold evaluate_ci_gate
    dsimp only
    rw [hrs]
  refine ⟨_, heval, ?_, ?_, ?_⟩
  · simp only [decide_eq_true_eq]
    rw [List.length_pos]
  · intro hcomps _hceil
    subst hcomps
    have hrs0 : rs = [] := hiff.mpr (by simp)
    subst hrs0
    cases maxTop with
    | none => simp
    | some t =>
      have ht : 0 < t := _hceil t rfl
      have hworst : findWorst (List.filter
          (fun c => decide (c.direction = "regression")) []) = (none, 0) := rfl
      simp only [List.filter_nil] at hworst ⊢
      rw [hworst]
      simp only [decide_eq_false_iff_not, not_lt]
      rw [if_neg (by simpa using not_le.mpr ht)]
      simp
  · intro hregs hsev hceil
    have hrs0 : rs = [] := hiff.mpr (fun c hc => hsev c (List.mem_of_mem_filter hc))
    subst hrs0
    rw [hregs]
    cases maxTop with
    | none => simp
    | some t =>
      have ht : 0 < t := hceil t rfl
      have hworst : findWorst ([] : List Comparison) = (none, 0) := rfl
      rw [hworst]
      simp only [decide_eq_false_iff_not, not_lt]
      rw [if_neg (by simpa using not_le.mpr ht)]
      simp

/-- C6 witness: the gate on an empty comparison list with the default
configuration succeeds with failed = false. -/
theorem ci_gate_failed_iff_reasons_witness :
    ∃ r, evaluate_ci_gate [] "major" none = .ok r ∧
      (r.failed = true ↔ r.reasons ≠ []) ∧
      (([] : List Comparison) = [] → (∀ t, (none : Option ℚ) = some t → 0 < t) →
        r.failed = false) ∧
      (List.filter (fun c => decide (c.direction = "regression"))
          ([] : List Comparison) = [] →
        (∀ c ∈ ([] : List Comparison), severity_rank c.severity < threshold_rank "major") →
        (∀ t, (none : Option ℚ) = some t → 0 < t) → r.failed = false) :=
  ci_gate_failed_iff_reasons [] "major" none (by simp) (by decide)

end BenchDiff
